import Mathlib

/-!
Verification of the pizza42 order API server.

The embedding below follows the pg-backed express server (the variant with the
users/orders tables): its middleware chain (requiredScopes, requireVerifiedEmail),
its management-API fallback for email verification, and its three order routes.
Where a claim is about the earlier server variant that stores orders in the
identity provider profile, that variant's email gate and management-token getter
are embedded separately (requireVerifiedEmail_v1, getMgmtToken).
-/

namespace Pizza42

/-- Row of the users table: id SERIAL PRIMARY KEY, auth0_sub TEXT UNIQUE NOT
NULL, email TEXT (nullable). -/
structure UserRow where
  id : Nat
  auth0_sub : String
  email : Option String
deriving DecidableEq, Repr

/-- Entry of the items array of an order body: { id, qty }. The server never
inspects the fields of an entry (it only stores the array as JSONB), so both
fields are optional at the JSON level. -/
structure OrderItem where
  id : Option String
  qty : Option Int
deriving DecidableEq, Repr

/-- Row of the orders table: id SERIAL, user_id (foreign key), items JSONB,
total NUMERIC(10,2), address TEXT (nullable), created_at TIMESTAMP (server
assigned). Timestamps are modelled as natural clock ticks. -/
structure OrderRow where
  id : Nat
  user_id : Nat
  items : List OrderItem
  total : Rat
  address : Option String
  created_at : Nat
deriving DecidableEq, Repr

/-- State of the Postgres database together with the server clock that assigns
created_at. SERIAL columns start at 1; NOW() is modelled by a counter that
advances on each order insert, so successive server-assigned timestamps are
strictly increasing. -/
structure Db where
  users : List UserRow
  orders : List OrderRow
  nextUserId : Nat
  nextOrderId : Nat
  now : Nat
deriving DecidableEq, Repr

/-- Freshly initialised database (initSchema on an empty store). -/
def Db.empty : Db := ⟨[], [], 1, 1, 1⟩

/-- JavaScript "x || null" on an optional string: undefined stays null and the
empty string is falsy, hence becomes null as well. -/
def jsOrNull : Option String → Option String
  | some s => if s = "" then none else some s
  | none => none

/-- JavaScript truthiness of an optional string: undefined and the empty
string are falsy. -/
def jsTruthy : Option String → Bool
  | some s => s != ""
  | none => false

/-- Claim set of a validated access token (req.auth.payload after checkJwt).
The space-delimited scope claim is represented as the list of its permission
tokens; gty is the grant-type claim set on machine-credentials tokens. -/
structure Payload where
  sub : Option String
  scope : List String
  email_verified : Option Bool
  email : Option String
  gty : Option String
deriving DecidableEq, Repr

/-- requiredScopes(perm) of express-oauth2-jwt-bearer: the required permission
must appear as a whole token of the space-delimited scope claim. -/
def hasScope (p : Payload) (perm : String) : Bool :=
  p.scope.contains perm

/-- Environment of one request as far as the management API is concerned:
whether MGMT_CLIENT_ID and MGMT_CLIENT_SECRET are configured, the outcome of
the POST /oauth/token client-credentials call (none = network or auth
failure), and the outcome of the GET /api/v2/users/:sub profile call (none =
failure, some b = the email_verified field of the fetched profile coerced to a
boolean). -/
structure MgmtEnv where
  hasCreds : Bool
  tokenFetch : Option String
  profile : Option Bool
deriving DecidableEq, Repr

/-- isEmailVerifiedViaMgmtApi(sub) of the pg-backed server: null when the
management credentials are not configured; otherwise fetch a management token
and then the user profile, returning the profile email_verified coerced to a
boolean; any thrown error is caught and yields null. The second component
counts the calls made to the user-profile endpoint. -/
def isEmailVerifiedViaMgmtApi (env : MgmtEnv) (sub : String) : Option Bool × Nat :=
  if env.hasCreds then
    match env.tokenFetch with
    | none => (none, 0)
    | some _ =>
      match env.profile with
      | none => (none, 1)
      | some b => (some b, 1)
  else (none, 0)

/-- Outcome of an express middleware: pass control to the next handler, or end
the response with a status code. -/
inductive GateResult where
  | proceed
  | halt (status : Nat)
deriving DecidableEq, Repr

/-- requireVerifiedEmail of the pg-backed server: 401 when the token has no
sub; an email_verified claim on the token is trusted as is (true proceeds,
false is a 403 with no network call); with no claim, fall back to the
management API and proceed only on a definite true, otherwise 403. The second
component counts the calls made to the user-profile endpoint. -/
def requireVerifiedEmail (env : MgmtEnv) (p : Payload) : GateResult × Nat :=
  match p.sub with
  | none => (GateResult.halt 401, 0)
  | some sub =>
    match p.email_verified with
    | some true => (GateResult.proceed, 0)
    | some false => (GateResult.halt 403, 0)
    | none =>
      let r := isEmailVerifiedViaMgmtApi env sub
      if r.1 = some true then (GateResult.proceed, r.2) else (GateResult.halt 403, r.2)

/-- requireVerifiedEmail of the first server variant: it never reads an
email_verified claim from the token; it always fetches a management token and
then the user profile, and decides from the fetched profile alone; a failure
of either fetch is caught and yields a 500. The second component counts the
calls made to the user-profile endpoint. -/
def requireVerifiedEmail_v1 (env : MgmtEnv) (p : Payload) : GateResult × Nat :=
  match p.sub with
  | none => (GateResult.halt 401, 0)
  | some _ =>
    match env.tokenFetch with
    | none => (GateResult.halt 500, 0)
    | some _ =>
      match env.profile with
      | none => (GateResult.halt 500, 1)
      | some b => if b then (GateResult.proceed, 1) else (GateResult.halt 403, 1)

/-- Update applied by ON CONFLICT (auth0_sub) DO UPDATE SET email =
EXCLUDED.email: set the email of every row whose auth0_sub matches (the UNIQUE
constraint makes it at most one). -/
def setEmail (auth0Sub : String) (email : Option String) (l : List UserRow) : List UserRow :=
  l.map (fun v => if v.auth0_sub == auth0Sub then { v with email := email } else v)

/-- ensureUser(auth0Sub, email): INSERT INTO users (auth0_sub, email) VALUES
($1, email || null) ON CONFLICT (auth0_sub) DO UPDATE SET email =
EXCLUDED.email RETURNING id. Returns the internal id and the new database
state. -/
def ensureUser (db : Db) (auth0Sub : String) (email : Option String) : Nat × Db :=
  match db.users.find? (fun u => u.auth0_sub == auth0Sub) with
  | some u => (u.id, { db with users := setEmail auth0Sub (jsOrNull email) db.users })
  | none =>
    (db.nextUserId,
     { db with
        users := db.users ++ [⟨db.nextUserId, auth0Sub, jsOrNull email⟩],
        nextUserId := db.nextUserId + 1 })

/-- INSERT INTO orders (user_id, items, total, address) VALUES ($1,$2,$3,$4)
RETURNING id, created_at: appends a row with the next serial id and the
server-assigned timestamp, advancing the clock. -/
def insertOrder (db : Db) (userId : Nat) (items : List OrderItem) (total : Rat)
    (address : Option String) : OrderRow × Db :=
  (⟨db.nextOrderId, userId, items, total, address, db.now⟩,
   { db with
      orders := db.orders ++ [⟨db.nextOrderId, userId, items, total, address, db.now⟩],
      nextOrderId := db.nextOrderId + 1,
      now := db.now + 1 })

/-- Parsed request body { items, total, address? }: items is none when the
field is absent or not an array (Array.isArray is false), and some l for the
array l; total is none when Number.isFinite(total) is false (absent, NaN,
infinite, or not a number), and some q for the finite number q. -/
structure OrderBody where
  items : Option (List OrderItem)
  total : Option Rat
  address : Option String
deriving DecidableEq, Repr

/-- JavaScript value occupying the total field of a raw request body: a finite
number, NaN, one of the infinities, or a value that is not a number at all
(including an absent field). The Option Rat field of OrderBody is the image of
this type under Number.isFinite, which is all the part_001 route can observe;
the two pg variants differ in how they test this value, so their body checks
are stated over it. -/
inductive JsTotal where
  | num (q : Rat)
  | nan
  | inf
  | negInf
  | notNumber
deriving DecidableEq, Repr

/-- typeof total === "number": NaN and the infinities are numbers. -/
def isNumberTotal : JsTotal → Bool
  | JsTotal.notNumber => false
  | _ => true

/-- Number.isFinite(total): only an actual finite number passes. -/
def isFiniteTotal : JsTotal → Bool
  | JsTotal.num _ => true
  | _ => false

/-- Collapse of a raw total to the Option Rat representation used by
OrderBody: some q for the finite number q, none otherwise. -/
def toFiniteTotal : JsTotal → Option Rat
  | JsTotal.num q => some q
  | _ => none

/-- Body check of POST /orders in part_001: !Array.isArray(items) ||
!Number.isFinite(total) answers 400. -/
def bodyCheckFails (items : Option (List OrderItem)) (total : JsTotal) : Bool :=
  items.isNone || !isFiniteTotal total

/-- Body check of POST /orders in the second pg-backed variant of server.js:
!Array.isArray(items) || typeof total !== "number" answers 400; NaN and the
infinities are numbers, so they pass this check. -/
def bodyCheckFails_v2 (items : Option (List OrderItem)) (total : JsTotal) : Bool :=
  items.isNone || !isNumberTotal total

/-- POST /orders of the pg-backed server: checkJwt has already produced the
validated payload p; then requiredScopes("create:orders") (403 on a missing
scope), requireVerifiedEmail, and the handler: ensureUser on the token
subject, then the body check (!Array.isArray(items) ||
!Number.isFinite(total) gives a 400 after the upsert), then the order insert
answered with a 201 carrying the created row. The missing-sub branch inside
the handler models the NOT NULL violation on users.auth0_sub surfacing as a
500; requireVerifiedEmail halts with 401 first, so it is unreachable. -/
def postOrders (env : MgmtEnv) (db : Db) (p : Payload) (body : OrderBody) :
    Nat × Option OrderRow × Db :=
  if hasScope p "create:orders" then
    match (requireVerifiedEmail env p).1 with
    | GateResult.halt s => (s, none, db)
    | GateResult.proceed =>
      match p.sub with
      | none => (500, none, db)
      | some sub =>
        let r := ensureUser db sub (jsOrNull p.email)
        match body.items, body.total with
        | some items, some total =>
          let r2 := insertOrder r.2 r.1 items total (jsOrNull body.address)
          (201, some r2.1, r2.2)
        | some _, none => (400, none, r.2)
        | none, _ => (400, none, r.2)
  else (403, none, db)

/-- Insert an order row into a list sorted by created_at descending, keeping
already present rows first among equal timestamps. -/
def insertByCreatedDesc (o : OrderRow) : List OrderRow → List OrderRow
  | [] => [o]
  | x :: xs =>
    if x.created_at < o.created_at then o :: x :: xs else x :: insertByCreatedDesc o xs

/-- ORDER BY created_at DESC as a stable insertion sort. -/
def sortByCreatedDesc : List OrderRow → List OrderRow
  | [] => []
  | x :: xs => insertByCreatedDesc x (sortByCreatedDesc xs)

/-- SELECT id, items, total, address, created_at FROM orders WHERE user_id =
$1 ORDER BY created_at DESC. -/
def listOrders (db : Db) (userId : Nat) : List OrderRow :=
  sortByCreatedDesc (db.orders.filter (fun o => o.user_id == userId))

/-- GET /orders of the pg-backed server: requiredScopes("read:orders"), then
ensureUser on the token subject followed by the descending history query. A
token without sub makes ensureUser violate the NOT NULL constraint on
auth0_sub, caught as a 500. -/
def getOrders (db : Db) (p : Payload) : Nat × Option (List OrderRow) × Db :=
  if hasScope p "read:orders" then
    match p.sub with
    | none => (500, none, db)
    | some sub =>
      let r := ensureUser db sub (jsOrNull p.email)
      (200, some (listOrders r.2 r.1), r.2)
  else (403, none, db)

/-- Projection returned by the summary route: { id, total, created_at }. -/
structure SummaryRow where
  id : Nat
  total : Rat
  created_at : Nat
deriving DecidableEq, Repr

/-- Reduction of an order row to the summary projection. -/
def toSummary (o : OrderRow) : SummaryRow := ⟨o.id, o.total, o.created_at⟩

/-- GET /orders/summary of the pg-backed server:
requiredScopes("read:orders_summary"); then 403 when a gty claim is present
(truthy) and differs from client-credentials; then 400 when the sub query
parameter is missing or empty; then 200 [] when no users row matches the
subject; otherwise 200 with the up-to-five most recent orders of that user
projected to { id, total, created_at }. -/
def getOrdersSummary (db : Db) (p : Payload) (subQ : Option String) :
    Nat × Option (List SummaryRow) :=
  if hasScope p "read:orders_summary" then
    if jsTruthy p.gty && p.gty != some "client-credentials" then (403, none)
    else if jsTruthy subQ = false then (400, none)
    else
      match db.users.find? (fun u => u.auth0_sub == subQ.getD "") with
      | none => (200, some [])
      | some u => (200, some (((listOrders db u.id).take 5).map toSummary))
  else (403, none)

/-- Environment of the client-credentials token endpoint as seen by
getMgmtToken: the outcome of one POST /oauth/token call (none = failure). -/
structure FetchEnv where
  tokenFetch : Option String
deriving DecidableEq, Repr

/-- getMgmtToken of the first server variant: it posts the machine client
credentials to the token endpoint on every invocation and returns the fetched
access token (none models a thrown fetch error); there is no cache variable
anywhere in the source. The second component counts the token-endpoint fetches
performed by the call, which is always one. -/
def getMgmtToken (env : FetchEnv) : Option String × Nat :=
  (env.tokenFetch, 1)

/-- Token-endpoint fetches performed by n successive getMgmtToken calls. -/
def getMgmtTokenFetches (env : FetchEnv) : Nat → Nat
  | 0 => 0
  | n + 1 => (getMgmtToken env).2 + getMgmtTokenFetches env n

/-- Credential held by the ServiceTokenCache described in the specification. -/
structure ServiceToken where
  value : String
  expiresAt : Nat
deriving DecidableEq, Repr

/-- Modelled from the spec: the ServiceTokenCache contract for get() — return
the cached credential when one is cached and not within the 30 second safety
margin of expiresAt, otherwise fetch, cache and return a fresh one. Returns
the served credential, the new cache state, and the number of token-endpoint
fetches performed. -/
def specServiceTokenCacheGet (fetched : Option ServiceToken) (now : Nat)
    (cache : Option ServiceToken) : Option ServiceToken × Option ServiceToken × Nat :=
  match cache with
  | some tok =>
    if now + 30 < tok.expiresAt then (some tok, some tok, 0)
    else (fetched, fetched, 1)
  | none => (fetched, fetched, 1)

/-- Modelled from the spec: token-endpoint fetches performed by two successive
get() calls against the spec cache, starting from an empty cache. -/
def specTwoCallFetches (fetched : Option ServiceToken) (now : Nat) : Nat :=
  (specServiceTokenCacheGet fetched now none).2.2 +
    (specServiceTokenCacheGet fetched now (specServiceTokenCacheGet fetched now none).2.1).2.2

/-- Concrete database state with one user owning seven orders, timestamps one
through seven. -/
def dbSeven : Db :=
  ⟨[⟨1, "alice", some "a@x.io"⟩],
   [⟨1, 1, [], 10, none, 1⟩, ⟨2, 1, [], 10, none, 2⟩, ⟨3, 1, [], 10, none, 3⟩,
    ⟨4, 1, [], 10, none, 4⟩, ⟨5, 1, [], 10, none, 5⟩, ⟨6, 1, [], 10, none, 6⟩,
    ⟨7, 1, [], 10, none, 7⟩],
   2, 8, 8⟩

/-- Invariant maintained by the UNIQUE constraint on users.auth0_sub. -/
def Db.UsersWf (db : Db) : Prop :=
  db.users.Pairwise (fun a b => a.auth0_sub ≠ b.auth0_sub)

/-- Invariant of the server clock: every stored order carries a timestamp
strictly below the current clock value. -/
def Db.ClockWf (db : Db) : Prop :=
  ∀ o ∈ db.orders, o.created_at < db.now

/-- Well-formedness of a reachable database state. -/
def Db.Wf (db : Db) : Prop := db.UsersWf ∧ db.ClockWf

/-! Helper lemmas about the users table operations. -/

theorem setEmail_cons (s : String) (e : Option String) (x : UserRow) (xs : List UserRow) :
    setEmail s e (x :: xs) =
      (if x.auth0_sub == s then { x with email := e } else x) :: setEmail s e xs := rfl

theorem setEmail_sub (s : String) (e : Option String) (v : UserRow) :
    (if v.auth0_sub == s then { v with email := e } else v).auth0_sub = v.auth0_sub := by
  split <;> rfl

theorem setEmail_find? (s : String) (e : Option String) :
    ∀ (l : List UserRow) (u : UserRow),
      l.find? (fun v => v.auth0_sub == s) = some u →
      (setEmail s e l).find? (fun v => v.auth0_sub == s) = some ⟨u.id, s, e⟩ := by
  intro l
  induction l with
  | nil => intro u h; simp at h
  | cons x xs ih =>
    intro u h
    by_cases hx : x.auth0_sub = s
    · rw [List.find?_cons_of_pos (p := fun (v : UserRow) => v.auth0_sub == s) xs (by simp [hx])] at h
      cases h
      rw [setEmail_cons, if_pos (by simp [hx]),
        List.find?_cons_of_pos (p := fun (v : UserRow) => v.auth0_sub == s) _ (by simp [hx])]
      simp [hx]
    · rw [List.find?_cons_of_neg (p := fun (v : UserRow) => v.auth0_sub == s) xs (by simp [hx])] at h
      rw [setEmail_cons, if_neg (by simp [hx]),
        List.find?_cons_of_neg (p := fun (v : UserRow) => v.auth0_sub == s) _ (by simp [hx])]
      exact ih u h

theorem setEmail_eq_of_no_match (s : String) (e : Option String) (l : List UserRow)
    (h : ∀ v ∈ l, v.auth0_sub ≠ s) : setEmail s e l = l := by
  induction l with
  | nil => rfl
  | cons x xs ih =>
    rw [setEmail_cons, if_neg (by simp [h x (List.mem_cons_self x xs)])]
    rw [ih (fun v hv => h v (List.mem_cons_of_mem x hv))]

theorem setEmail_filter (s : String) (e : Option String) :
    ∀ (l : List UserRow) (u : UserRow),
      l.Pairwise (fun a b => a.auth0_sub ≠ b.auth0_sub) →
      l.find? (fun v => v.auth0_sub == s) = some u →
      (setEmail s e l).filter (fun v => v.auth0_sub == s) = [⟨u.id, s, e⟩] := by
  intro l
  induction l with
  | nil => intro u _ h; simp at h
  | cons x xs ih =>
    intro u hpw h
    by_cases hx : x.auth0_sub = s
    · rw [List.find?_cons_of_pos (p := fun (v : UserRow) => v.auth0_sub == s) xs (by simp [hx])] at h
      cases h
      rw [setEmail_cons, if_pos (by simp [hx])]
      have hxs : ∀ v ∈ xs, v.auth0_sub ≠ s := by
        intro v hv hvs
        exact ((List.pairwise_cons.mp hpw).1 v hv) (by rw [hx, hvs])
      rw [setEmail_eq_of_no_match s e xs hxs]
      rw [List.filter_cons_of_pos (p := fun (v : UserRow) => v.auth0_sub == s) (by simp [hx])]
      have hnil : xs.filter (fun v => v.auth0_sub == s) = [] := by
        rw [List.filter_eq_nil_iff]
        intro v hv
        simp [hxs v hv]
      rw [hnil]
      simp [hx]
    · rw [List.find?_cons_of_neg (p := fun (v : UserRow) => v.auth0_sub == s) xs (by simp [hx])] at h
      rw [setEmail_cons, if_neg (by simp [hx]),
        List.filter_cons_of_neg (p := fun (v : UserRow) => v.auth0_sub == s) (by simp [hx])]
      exact ih u (List.pairwise_cons.mp hpw).2 h

theorem setEmail_pairwise (s : String) (e : Option String) (l : List UserRow)
    (h : l.Pairwise (fun a b => a.auth0_sub ≠ b.auth0_sub)) :
    (setEmail s e l).Pairwise (fun a b => a.auth0_sub ≠ b.auth0_sub) := by
  refine List.Pairwise.map _ (fun a b hab => ?_) h
  rw [setEmail_sub, setEmail_sub]
  exact hab

theorem find?_append_singleton (p : UserRow → Bool) (l : List UserRow) (x : UserRow)
    (h : ∀ a ∈ l, p a = false) (hx : p x = true) : (l ++ [x]).find? p = some x := by
  induction l with
  | nil => simp [List.find?, hx]
  | cons a as ih =>
    rw [List.cons_append,
      List.find?_cons_of_neg (p := p) _ (by simp [h a (List.mem_cons_self a as)])]
    exact ih (fun b hb => h b (List.mem_cons_of_mem a hb))

/-! Characterization of ensureUser. -/

theorem ensureUser_frame (db : Db) (s : String) (e : Option String) :
    (ensureUser db s e).2.orders = db.orders ∧
    (ensureUser db s e).2.nextOrderId = db.nextOrderId ∧
    (ensureUser db s e).2.now = db.now := by
  rcases h : db.users.find? (fun u => u.auth0_sub == s) with _ | u <;>
    simp [ensureUser, h]

theorem ensureUser_find? (db : Db) (s : String) (e : Option String) :
    (ensureUser db s e).2.users.find? (fun v => v.auth0_sub == s) =
      some ⟨(ensureUser db s e).1, s, jsOrNull e⟩ := by
  rcases h : db.users.find? (fun u => u.auth0_sub == s) with _ | u
  · simp only [ensureUser, h]
    exact find?_append_singleton _ _ _
      (fun a ha => by
        have := List.find?_eq_none.mp h a ha
        simpa using this)
      (by simp)
  · simp only [ensureUser, h]
    exact setEmail_find? s (jsOrNull e) db.users u h

theorem ensureUser_filter (db : Db) (s : String) (e : Option String)
    (hwf : db.UsersWf) :
    (ensureUser db s e).2.users.filter (fun v => v.auth0_sub == s) =
      [⟨(ensureUser db s e).1, s, jsOrNull e⟩] := by
  rcases h : db.users.find? (fun u => u.auth0_sub == s) with _ | u
  · simp only [ensureUser, h]
    rw [List.filter_append]
    have hnil : db.users.filter (fun v => v.auth0_sub == s) = [] := by
      rw [List.filter_eq_nil_iff]
      intro a ha
      exact List.find?_eq_none.mp h a ha
    rw [hnil]
    simp
  · simp only [ensureUser, h]
    exact setEmail_filter s (jsOrNull e) db.users u hwf h

theorem ensureUser_usersWf (db : Db) (s : String) (e : Option String)
    (hwf : db.UsersWf) : (ensureUser db s e).2.UsersWf := by
  rcases h : db.users.find? (fun u => u.auth0_sub == s) with _ | u
  · simp only [Db.UsersWf, ensureUser, h]
    rw [List.pairwise_append]
    refine ⟨hwf, by simp, ?_⟩
    intro a ha b hb
    rw [List.mem_singleton] at hb
    subst hb
    have := List.find?_eq_none.mp h a ha
    simpa using this
  · simp only [Db.UsersWf, ensureUser, h]
    exact setEmail_pairwise s (jsOrNull e) db.users hwf

theorem ensureUser_users_of_new (db : Db) (s : String) (e : Option String)
    (h : db.users.find? (fun v => v.auth0_sub == s) = none) :
    (ensureUser db s e).2.users = db.users ++ [⟨db.nextUserId, s, jsOrNull e⟩] ∧
    (ensureUser db s e).1 = db.nextUserId := by
  simp [ensureUser, h]

theorem ensureUser_users_of_found (db : Db) (s : String) (e : Option String)
    (u : UserRow) (h : db.users.find? (fun v => v.auth0_sub == s) = some u) :
    (ensureUser db s e).2.users.length = db.users.length ∧
    (ensureUser db s e).1 = u.id := by
  simp [ensureUser, h, setEmail]

theorem ensureUser_clockWf (db : Db) (s : String) (e : Option String)
    (h : db.ClockWf) : (ensureUser db s e).2.ClockWf := by
  intro o ho
  rw [(ensureUser_frame db s e).1] at ho
  rw [(ensureUser_frame db s e).2.2]
  exact h o ho

/-! Lemmas about the descending insertion sort backing ORDER BY created_at
DESC. -/

theorem insertByCreatedDesc_perm (o : OrderRow) (l : List OrderRow) :
    (insertByCreatedDesc o l).Perm (o :: l) := by
  induction l with
  | nil => exact List.Perm.refl _
  | cons x xs ih =>
    simp only [insertByCreatedDesc]
    split
    · exact List.Perm.refl _
    · exact (ih.cons x).trans (List.Perm.swap o x xs)

theorem sortByCreatedDesc_perm (l : List OrderRow) :
    (sortByCreatedDesc l).Perm l := by
  induction l with
  | nil => exact List.Perm.refl _
  | cons x xs ih =>
    exact (insertByCreatedDesc_perm x (sortByCreatedDesc xs)).trans (ih.cons x)

theorem insertByCreatedDesc_sorted (o : OrderRow) (l : List OrderRow)
    (h : l.Pairwise (fun a b => b.created_at ≤ a.created_at)) :
    (insertByCreatedDesc o l).Pairwise (fun a b => b.created_at ≤ a.created_at) := by
  induction l with
  | nil => simp [insertByCreatedDesc]
  | cons x xs ih =>
    simp only [insertByCreatedDesc]
    split
    case isTrue hlt =>
      rw [List.pairwise_cons]
      refine ⟨?_, h⟩
      intro b hb
      rcases List.mem_cons.mp hb with rfl | hbs
      · omega
      · have hxb : b.created_at ≤ x.created_at := List.rel_of_pairwise_cons h hbs
        omega
    case isFalse hge =>
      rw [List.pairwise_cons]
      constructor
      · intro b hb
        rcases List.mem_cons.mp ((insertByCreatedDesc_perm o xs).mem_iff.mp hb) with rfl | hbs
        · omega
        · exact List.rel_of_pairwise_cons h hbs
      · exact ih (List.pairwise_cons.mp h).2

theorem sortByCreatedDesc_sorted (l : List OrderRow) :
    (sortByCreatedDesc l).Pairwise (fun a b => b.created_at ≤ a.created_at) := by
  induction l with
  | nil => simp [sortByCreatedDesc]
  | cons x xs ih => exact insertByCreatedDesc_sorted x (sortByCreatedDesc xs) ih

theorem head?_eq_of_strict_max {l m : List OrderRow} {x : OrderRow}
    (hperm : l.Perm m)
    (hs : l.Pairwise (fun a b => b.created_at ≤ a.created_at))
    (hx : x ∈ m)
    (hmax : ∀ y ∈ m, y ≠ x → y.created_at < x.created_at) :
    l.head? = some x := by
  cases l with
  | nil =>
    exact absurd (hperm.mem_iff.mpr hx) (List.not_mem_nil x)
  | cons h t =>
    have hhm : h ∈ m := hperm.mem_iff.mp (List.mem_cons_self h t)
    by_cases heq : h = x
    · rw [heq]; rfl
    · have hlt : h.created_at < x.created_at := hmax h hhm heq
      have hxl : x ∈ h :: t := hperm.mem_iff.mpr hx
      rcases List.mem_cons.mp hxl with rfl | hxt
      · exact absurd rfl heq
      · have hle : x.created_at ≤ h.created_at := List.rel_of_pairwise_cons hs hxt
        omega

/-! Claim theorems. -/

/-- C1: for every POST /orders request whose validated token has no
email_verified claim and whose management-API fallback fails or returns an
indeterminate result, the response status is 403 or 500 and never 201, and no
order row is written. -/
theorem postOrders_fail_closed (env : MgmtEnv) (db : Db) (p : Payload)
    (body : OrderBody) (s : String) (hsub : p.sub = some s)
    (hev : p.email_verified = none)
    (hfb : (isEmailVerifiedViaMgmtApi env s).1 = none) :
    ((postOrders env db p body).1 = 403 ∨ (postOrders env db p body).1 = 500) ∧
    (postOrders env db p body).1 ≠ 201 ∧
    (postOrders env db p body).2.2.orders = db.orders := by
  have hgate : (requireVerifiedEmail env p).1 = GateResult.halt 403 := by
    simp [requireVerifiedEmail, hsub, hev, hfb]
  by_cases hsc : hasScope p "create:orders"
  · simp [postOrders, hsc, hgate]
  · simp [postOrders, hsc]

/-- C1 witness: concrete token with no email_verified claim against a provider
whose profile endpoint is unreachable. -/
theorem postOrders_fail_closed_witness :
    ((postOrders ⟨true, some "t", none⟩ Db.empty
        ⟨some "alice", ["create:orders"], none, none, none⟩
        ⟨some [⟨some "pepperoni", some 1⟩], some 10, none⟩).1 = 403 ∨
      (postOrders ⟨true, some "t", none⟩ Db.empty
        ⟨some "alice", ["create:orders"], none, none, none⟩
        ⟨some [⟨some "pepperoni", some 1⟩], some 10, none⟩).1 = 500) ∧
    (postOrders ⟨true, some "t", none⟩ Db.empty
        ⟨some "alice", ["create:orders"], none, none, none⟩
        ⟨some [⟨some "pepperoni", some 1⟩], some 10, none⟩).1 ≠ 201 ∧
    (postOrders ⟨true, some "t", none⟩ Db.empty
        ⟨some "alice", ["create:orders"], none, none, none⟩
        ⟨some [⟨some "pepperoni", some 1⟩], some 10, none⟩).2.2.orders =
      Db.empty.orders :=
  postOrders_fail_closed _ _ _ _ "alice" rfl rfl rfl

/-- C2 counterexample: the email gate of the first server variant, handed a
token that carries email_verified = true, still performs a user-profile call
(call count one, not zero) and even denies the request when the fetched
profile disagrees, so the decision is not taken from the token claim alone. -/
theorem requireVerifiedEmail_v1_ignores_claim :
    requireVerifiedEmail_v1 ⟨true, some "mgmt-token", some false⟩
        ⟨some "alice", ["create:orders"], some true, some "alice@example.com", none⟩ =
      (GateResult.halt 403, 1) := by decide

/-- C2 (amended): in the pg-backed server, when the validated token carries an
email_verified claim, requireVerifiedEmail decides from that claim alone with
no user-profile call: true passes control on, and false makes POST /orders
answer 403 whatever the scope claim holds. The earlier server variant instead
always queries the user-profile endpoint. -/
theorem requireVerifiedEmail_fast_path (env : MgmtEnv) (db : Db) (p : Payload)
    (body : OrderBody) (s : String) (b : Bool) (hsub : p.sub = some s)
    (hev : p.email_verified = some b) :
    (requireVerifiedEmail env p).2 = 0 ∧
    (b = true → (requireVerifiedEmail env p).1 = GateResult.proceed) ∧
    (b = false → (postOrders env db p body).1 = 403) := by
  cases b
  · have hgate : requireVerifiedEmail env p = (GateResult.halt 403, 0) := by
      simp [requireVerifiedEmail, hsub, hev]
    refine ⟨by rw [hgate], by simp, fun _ => ?_⟩
    by_cases hsc : hasScope p "create:orders"
    · simp [postOrders, hsc, hgate]
    · simp [postOrders, hsc]
  · have hgate : requireVerifiedEmail env p = (GateResult.proceed, 0) := by
      simp [requireVerifiedEmail, hsub, hev]
    exact ⟨by rw [hgate], fun _ => by rw [hgate], by simp⟩

/-- C2 witness: concrete token with email_verified = false and the create
scope, denied 403 with no profile call. -/
theorem requireVerifiedEmail_fast_path_witness :
    (requireVerifiedEmail ⟨true, some "t", some true⟩
        ⟨some "alice", ["create:orders"], some false, none, none⟩).2 = 0 ∧
    (false = true →
      (requireVerifiedEmail ⟨true, some "t", some true⟩
          ⟨some "alice", ["create:orders"], some false, none, none⟩).1 =
        GateResult.proceed) ∧
    (false = false →
      (postOrders ⟨true, some "t", some true⟩ Db.empty
          ⟨some "alice", ["create:orders"], some false, none, none⟩
          ⟨some [], some 10, none⟩).1 = 403) :=
  requireVerifiedEmail_fast_path _ Db.empty _ _ "alice" false rfl rfl

/-- C3 counterexample: a token carrying the read:orders_summary scope but no
gty claim — hence not issued through the client-credentials grant — is not
rejected: the summary route answers 200 and returns the order data. -/
theorem summary_accepts_token_without_gty :
    getOrdersSummary
        ⟨[⟨1, "alice", none⟩], [⟨1, 1, [], 10, none, 1⟩], 2, 2, 2⟩
        ⟨some "human-user", ["read:orders_summary"], none, none, none⟩
        (some "alice") =
      (200, some [⟨1, 10, 1⟩]) := by decide

/-- C3 (amended): the summary route rejects with 403 exactly those tokens
whose gty claim is present (non empty) and different from client-credentials;
a token without any gty claim passes the grant-type check even though it was
not issued through the client-credentials grant. -/
theorem summary_rejects_foreign_gty (db : Db) (p : Payload) (subQ : Option String)
    (g : String) (hg : p.gty = some g) (hne : g ≠ "client-credentials")
    (hne0 : g ≠ "") (hsc : hasScope p "read:orders_summary" = true) :
    getOrdersSummary db p subQ = (403, none) := by
  simp [getOrdersSummary, hsc, hg, jsTruthy, hne, hne0]

/-- C3 witness: concrete interactive-grant token with the summary scope. -/
theorem summary_rejects_foreign_gty_witness :
    getOrdersSummary Db.empty
        ⟨some "h", ["read:orders_summary"], none, none, some "password"⟩
        (some "alice") = (403, none) :=
  summary_rejects_foreign_gty _ _ _ "password" rfl (by decide) (by decide) rfl

/-- C4 counterexample: a body with an empty items array and a negative total
passes the body check of POST /orders: the order is inserted and the route
answers 201, where the claim demands a 400 ValidationError. -/
theorem post_orders_accepts_degenerate_body :
    postOrders ⟨false, none, none⟩ Db.empty
        ⟨some "alice", ["create:orders"], some true, none, none⟩
        ⟨some [], some (-1), none⟩ =
      (201, some ⟨1, 1, [], -1, none, 1⟩,
       ⟨[⟨1, "alice", none⟩], [⟨1, 1, [], -1, none, 1⟩], 2, 2, 2⟩) := by decide

/-- C4 (amended): in the part_001 variant, past the gates, the body is
rejected with 400 exactly when items is not an array or total is not a finite
number, and the order is inserted (201) whenever items is any array and total
any finite number; in the second pg-backed variant of server.js the check is
typeof total !== "number" instead, so a NaN or infinite total — not a finite
number — still passes that body check and is not rejected with 400. In
neither variant are the emptiness of items, the shape of its entries or the
sign of total checked. -/
theorem post_orders_body_validation (env : MgmtEnv) (db : Db) (p : Payload)
    (body : OrderBody) (s : String) (hsub : p.sub = some s)
    (hsc : hasScope p "create:orders" = true)
    (hgate : (requireVerifiedEmail env p).1 = GateResult.proceed) :
    ((body.items = none ∨ body.total = none) →
      postOrders env db p body = (400, none, (ensureUser db s (jsOrNull p.email)).2)) ∧
    (∀ items t, body.items = some items → body.total = some t →
      (postOrders env db p body).1 = 201 ∧
      (postOrders env db p body).2.1 =
        some ⟨db.nextOrderId, (ensureUser db s (jsOrNull p.email)).1, items, t,
              jsOrNull body.address, db.now⟩ ∧
      (postOrders env db p body).2.2.orders =
        db.orders ++ [⟨db.nextOrderId, (ensureUser db s (jsOrNull p.email)).1,
                       items, t, jsOrNull body.address, db.now⟩]) ∧
    (∀ tot, (toFiniteTotal tot).isSome = isFiniteTotal tot) ∧
    (∀ l : List OrderItem,
      bodyCheckFails (some l) JsTotal.nan = true ∧
      bodyCheckFails (some l) JsTotal.inf = true ∧
      bodyCheckFails_v2 (some l) JsTotal.nan = false ∧
      bodyCheckFails_v2 (some l) JsTotal.inf = false ∧
      isFiniteTotal JsTotal.nan = false ∧
      isFiniteTotal JsTotal.inf = false) := by
  have hfr := ensureUser_frame db s (jsOrNull p.email)
  refine ⟨?_, ?_, ?_, ?_⟩
  · intro hbad
    rcases hbad with hbad | hbad
    · simp [postOrders, hsc, hgate, hsub, hbad]
    · rcases hi : body.items with _ | items
      · simp [postOrders, hsc, hgate, hsub, hi]
      · simp [postOrders, hsc, hgate, hsub, hi, hbad]
  · intro items t hi ht
    simp only [postOrders, hsc, if_true, hgate, hsub, hi, ht]
    simp [insertOrder, hfr.1, hfr.2.1, hfr.2.2]
  · intro tot
    cases tot <;> rfl
  · intro l
    simp [bodyCheckFails, bodyCheckFails_v2, isFiniteTotal, isNumberTotal]

/-- C4 amended witness: concrete malformed body (items not an array) past the
gates. -/
theorem post_orders_body_validation_witness :
    (((⟨none, some 3, none⟩ : OrderBody).items = none ∨
        (⟨none, some 3, none⟩ : OrderBody).total = none) →
      postOrders ⟨false, none, none⟩ Db.empty
          ⟨some "alice", ["create:orders"], some true, none, none⟩
          ⟨none, some 3, none⟩ =
        (400, none, (ensureUser Db.empty "alice" (jsOrNull none)).2)) ∧
    (∀ items t, (⟨none, some 3, none⟩ : OrderBody).items = some items →
      (⟨none, some 3, none⟩ : OrderBody).total = some t →
      (postOrders ⟨false, none, none⟩ Db.empty
          ⟨some "alice", ["create:orders"], some true, none, none⟩
          ⟨none, some 3, none⟩).1 = 201 ∧
      (postOrders ⟨false, none, none⟩ Db.empty
          ⟨some "alice", ["create:orders"], some true, none, none⟩
          ⟨none, some 3, none⟩).2.1 =
        some ⟨Db.empty.nextOrderId,
              (ensureUser Db.empty "alice" (jsOrNull none)).1, items, t,
              jsOrNull (⟨none, some 3, none⟩ : OrderBody).address, Db.empty.now⟩ ∧
      (postOrders ⟨false, none, none⟩ Db.empty
          ⟨some "alice", ["create:orders"], some true, none, none⟩
          ⟨none, some 3, none⟩).2.2.orders =
        Db.empty.orders ++
          [⟨Db.empty.nextOrderId,
            (ensureUser Db.empty "alice" (jsOrNull none)).1, items, t,
            jsOrNull (⟨none, some 3, none⟩ : OrderBody).address, Db.empty.now⟩]) ∧
    (∀ tot, (toFiniteTotal tot).isSome = isFiniteTotal tot) ∧
    (∀ l : List OrderItem,
      bodyCheckFails (some l) JsTotal.nan = true ∧
      bodyCheckFails (some l) JsTotal.inf = true ∧
      bodyCheckFails_v2 (some l) JsTotal.nan = false ∧
      bodyCheckFails_v2 (some l) JsTotal.inf = false ∧
      isFiniteTotal JsTotal.nan = false ∧
      isFiniteTotal JsTotal.inf = false) :=
  post_orders_body_validation ⟨false, none, none⟩ Db.empty _ _ "alice" rfl rfl rfl

/-- C5: ensureUser is idempotent on the external subject: two calls with the
same subject and possibly different emails leave exactly one users row for the
subject, carrying the email of the latest call, and both calls return the same
internal id. -/
theorem ensureUser_idempotent (db : Db) (s : String) (e1 e2 : Option String)
    (hwf : db.UsersWf) :
    (ensureUser (ensureUser db s e1).2 s e2).1 = (ensureUser db s e1).1 ∧
    (ensureUser (ensureUser db s e1).2 s e2).2.users.filter
        (fun v => v.auth0_sub == s) =
      [⟨(ensureUser db s e1).1, s, jsOrNull e2⟩] := by
  have h1 := ensureUser_find? db s e1
  have hwf1 := ensureUser_usersWf db s e1 hwf
  have hid : (ensureUser (ensureUser db s e1).2 s e2).1 = (ensureUser db s e1).1 :=
    (ensureUser_users_of_found _ s e2 _ h1).2
  refine ⟨hid, ?_⟩
  rw [ensureUser_filter _ s e2 hwf1, hid]

/-- C5 witness: two concrete calls on the empty database. -/
theorem ensureUser_idempotent_witness :
    (ensureUser (ensureUser Db.empty "alice" (some "a@x.io")).2 "alice"
        (some "b@y.io")).1 = (ensureUser Db.empty "alice" (some "a@x.io")).1 ∧
    (ensureUser (ensureUser Db.empty "alice" (some "a@x.io")).2 "alice"
        (some "b@y.io")).2.users.filter (fun v => v.auth0_sub == "alice") =
      [⟨(ensureUser Db.empty "alice" (some "a@x.io")).1, "alice",
        jsOrNull (some "b@y.io")⟩] :=
  ensureUser_idempotent Db.empty "alice" (some "a@x.io") (some "b@y.io")
    (by simp [Db.UsersWf, Db.empty])

/-- C8 counterexample: two successive getMgmtToken calls, in an environment
whose token endpoint serves a credential valid for a day, perform two
client-credentials fetches, while a getter honouring the claimed cache
contract performs one: the code keeps no cached credential. -/
theorem getMgmtToken_refetches_despite_fresh_token :
    getMgmtTokenFetches ⟨some "tok"⟩ 2 = 2 ∧
    specTwoCallFetches (some ⟨"tok", 86400⟩) 0 = 1 ∧ (2 : Nat) ≠ 1 := by decide

/-- C8 (amended): getMgmtToken maintains no cache at all: every call returns
exactly what the token endpoint just produced and performs exactly one
client-credentials fetch, so n successive calls perform n fetches and no
previously fetched credential — stale or fresh — is ever served again from
memory. -/
theorem getMgmtToken_always_fetches (env : FetchEnv) (n : Nat) :
    getMgmtToken env = (env.tokenFetch, 1) ∧ getMgmtTokenFetches env n = n := by
  refine ⟨rfl, ?_⟩
  induction n with
  | zero => rfl
  | succ k ih =>
    simp only [getMgmtTokenFetches, getMgmtToken, ih]
    omega

theorem jsOrNull_idem (e : Option String) : jsOrNull (jsOrNull e) = jsOrNull e := by
  rcases e with _ | s
  · rfl
  · by_cases h : s = "" <;> simp [jsOrNull, h]

/-- C9: GET /orders, a read-only route, performs the ensureUser upsert before
querying: a first GET for a validated subject creates its users row, carrying
the token email or null, and every subsequent GET overwrites that row email
with the email of the current token. -/
theorem getOrders_upserts_user (db : Db) (q : Payload) (s : String)
    (hwf : db.UsersWf) (hs : q.sub = some s)
    (hsc : hasScope q "read:orders" = true) :
    (getOrders db q).1 = 200 ∧
    (db.users.find? (fun v => v.auth0_sub == s) = none →
      (getOrders db q).2.2.users =
        db.users ++ [⟨db.nextUserId, s, jsOrNull q.email⟩]) ∧
    (∀ u, db.users.find? (fun v => v.auth0_sub == s) = some u →
      (getOrders db q).2.2.users.length = db.users.length ∧
      (getOrders db q).2.2.users.filter (fun v => v.auth0_sub == s) =
        [⟨u.id, s, jsOrNull q.email⟩]) := by
  have hdb2 : (getOrders db q).2.2 = (ensureUser db s (jsOrNull q.email)).2 := by
    simp [getOrders, hsc, hs]
  refine ⟨by simp [getOrders, hsc, hs], ?_, ?_⟩
  · intro hnone
    rw [hdb2, (ensureUser_users_of_new db s (jsOrNull q.email) hnone).1, jsOrNull_idem]
  · intro u hu
    rw [hdb2]
    refine ⟨(ensureUser_users_of_found db s (jsOrNull q.email) u hu).1, ?_⟩
    rw [ensureUser_filter db s (jsOrNull q.email) hwf, jsOrNull_idem,
      (ensureUser_users_of_found db s (jsOrNull q.email) u hu).2]

/-- C9 witness: a concrete first GET /orders for a brand-new subject, then the
theorem applied again after that GET with a token carrying another email. -/
theorem getOrders_upserts_user_witness :
    (getOrders Db.empty ⟨some "alice", ["read:orders"], none, some "a@x.io", none⟩).1 = 200 ∧
    (Db.empty.users.find? (fun v => v.auth0_sub == "alice") = none →
      (getOrders Db.empty ⟨some "alice", ["read:orders"], none, some "a@x.io", none⟩).2.2.users =
        Db.empty.users ++ [⟨Db.empty.nextUserId, "alice", jsOrNull (some "a@x.io")⟩]) ∧
    (∀ u, Db.empty.users.find? (fun v => v.auth0_sub == "alice") = some u →
      (getOrders Db.empty ⟨some "alice", ["read:orders"], none, some "a@x.io", none⟩).2.2.users.length =
        Db.empty.users.length ∧
      (getOrders Db.empty ⟨some "alice", ["read:orders"], none, some "a@x.io", none⟩).2.2.users.filter
          (fun v => v.auth0_sub == "alice") =
        [⟨u.id, "alice", jsOrNull (some "a@x.io")⟩]) :=
  getOrders_upserts_user Db.empty _ "alice" (by simp [Db.UsersWf, Db.empty]) rfl rfl

/-- C10: POST /orders runs the ensureUser upsert before the body check, so a
request past all gates with a malformed body gets a 400 that is not free of
side effects: the users row of the subject has been inserted or its email
overwritten, while no order row is written. -/
theorem post_orders_upserts_before_validation (env : MgmtEnv) (db : Db)
    (p : Payload) (body : OrderBody) (s : String)
    (hwf : db.UsersWf) (hsub : p.sub = some s)
    (hsc : hasScope p "create:orders" = true)
    (hgate : (requireVerifiedEmail env p).1 = GateResult.proceed)
    (hbad : body.items = none ∨ body.total = none) :
    (postOrders env db p body).1 = 400 ∧
    (postOrders env db p body).2.2.orders = db.orders ∧
    (postOrders env db p body).2.2.users.filter (fun v => v.auth0_sub == s) =
      [⟨(ensureUser db s (jsOrNull p.email)).1, s, jsOrNull p.email⟩] ∧
    (db.users.find? (fun v => v.auth0_sub == s) = none →
      (postOrders env db p body).2.2.users.length = db.users.length + 1) := by
  have h400 : postOrders env db p body =
      (400, none, (ensureUser db s (jsOrNull p.email)).2) := by
    rcases hbad with hbad | hbad
    · simp [postOrders, hsc, hgate, hsub, hbad]
    · rcases hi : body.items with _ | items
      · simp [postOrders, hsc, hgate, hsub, hi]
      · simp [postOrders, hsc, hgate, hsub, hi, hbad]
  rw [h400]
  refine ⟨rfl, (ensureUser_frame db s (jsOrNull p.email)).1, ?_, ?_⟩
  · rw [ensureUser_filter db s (jsOrNull p.email) hwf, jsOrNull_idem]
  · intro hnone
    rw [(ensureUser_users_of_new db s (jsOrNull p.email) hnone).1]
    simp

/-- C10 witness: concrete malformed body (total NaN) behind passing gates on
the empty database. -/
theorem post_orders_upserts_before_validation_witness :
    (postOrders ⟨false, none, none⟩ Db.empty
        ⟨some "bob", ["create:orders"], some true, some "b@y.io", none⟩
        ⟨some [⟨some "margarita", some 2⟩], none, none⟩).1 = 400 ∧
    (postOrders ⟨false, none, none⟩ Db.empty
        ⟨some "bob", ["create:orders"], some true, some "b@y.io", none⟩
        ⟨some [⟨some "margarita", some 2⟩], none, none⟩).2.2.orders = Db.empty.orders ∧
    (postOrders ⟨false, none, none⟩ Db.empty
        ⟨some "bob", ["create:orders"], some true, some "b@y.io", none⟩
        ⟨some [⟨some "margarita", some 2⟩], none, none⟩).2.2.users.filter
        (fun v => v.auth0_sub == "bob") =
      [⟨(ensureUser Db.empty "bob" (jsOrNull (some "b@y.io"))).1, "bob",
        jsOrNull (some "b@y.io")⟩] ∧
    (Db.empty.users.find? (fun v => v.auth0_sub == "bob") = none →
      (postOrders ⟨false, none, none⟩ Db.empty
          ⟨some "bob", ["create:orders"], some true, some "b@y.io", none⟩
          ⟨some [⟨some "margarita", some 2⟩], none, none⟩).2.2.users.length =
        Db.empty.users.length + 1) :=
  post_orders_upserts_before_validation ⟨false, none, none⟩ Db.empty _ _ "bob"
    (by simp [Db.UsersWf, Db.empty]) rfl rfl rfl (Or.inr rfl)

theorem sortDesc_filter_append_head (l : List OrderRow) (uid : Nat) (row : OrderRow)
    (hrow : (row.user_id == uid) = true)
    (hclock : ∀ o ∈ l, o.created_at < row.created_at) :
    (sortByCreatedDesc ((l ++ [row]).filter (fun o => o.user_id == uid))).head? =
      some row := by
  apply head?_eq_of_strict_max (sortByCreatedDesc_perm _) (sortByCreatedDesc_sorted _)
  · rw [List.mem_filter]
    exact ⟨List.mem_append_right l (List.mem_singleton_self row), hrow⟩
  · intro y hy hne
    have hy2 := List.mem_of_mem_filter hy
    rcases List.mem_append.mp hy2 with hyl | hyr
    · exact hclock y hyl
    · rw [List.mem_singleton] at hyr
      exact absurd hyr hne

theorem getOrders_eq (db : Db) (q : Payload) (s : String) (hqs : q.sub = some s)
    (hqsc : hasScope q "read:orders" = true) :
    getOrders db q =
      (200,
       some (listOrders (ensureUser db s (jsOrNull q.email)).2
               (ensureUser db s (jsOrNull q.email)).1),
       (ensureUser db s (jsOrNull q.email)).2) := by
  simp [getOrders, hqsc, hqs]

theorem getOrders_head_after_insert (db2 : Db) (q : Payload) (s : String)
    (u : UserRow) (row : OrderRow) (l : List OrderRow)
    (hqs : q.sub = some s) (hqsc : hasScope q "read:orders" = true)
    (hfind : db2.users.find? (fun v => v.auth0_sub == s) = some u)
    (horders : db2.orders = l ++ [row]) (hrow : row.user_id = u.id)
    (hclock : ∀ o ∈ l, o.created_at < row.created_at) :
    ∃ L2 db3, getOrders db2 q = (200, some L2, db3) ∧ L2.head? = some row := by
  refine ⟨_, _, getOrders_eq db2 q s hqs hqsc, ?_⟩
  simp only [listOrders]
  rw [(ensureUser_frame db2 s (jsOrNull q.email)).1, horders,
    (ensureUser_users_of_found db2 s (jsOrNull q.email) u hfind).2]
  exact sortDesc_filter_append_head l u.id row (by simp [hrow]) hclock

/-- C7: GET /orders returns the full order history of the user sorted by
created_at descending (the empty sequence when there is none), and after a new
order of the user is inserted through POST /orders, re-querying places the new
order first. -/
theorem getOrders_sorted_new_first (env : MgmtEnv) (db : Db) (p q : Payload)
    (body : OrderBody) (s : String) (items : List OrderItem) (t : Rat)
    (hwf : db.Wf)
    (hps : p.sub = some s) (hqs : q.sub = some s)
    (hpsc : hasScope p "create:orders" = true)
    (hqsc : hasScope q "read:orders" = true)
    (hgate : (requireVerifiedEmail env p).1 = GateResult.proceed)
    (hitems : body.items = some items) (ht : body.total = some t) :
    (∃ L db1, getOrders db q = (200, some L, db1) ∧
       L.Perm (db.orders.filter
         (fun o => o.user_id == (ensureUser db s (jsOrNull q.email)).1)) ∧
       L.Pairwise (fun a b => b.created_at ≤ a.created_at)) ∧
    (∃ row db2, postOrders env db p body = (201, some row, db2) ∧
       ∃ L2 db3, getOrders db2 q = (200, some L2, db3) ∧
         L2.head? = some row) := by
  constructor
  · refine ⟨listOrders (ensureUser db s (jsOrNull q.email)).2
        (ensureUser db s (jsOrNull q.email)).1,
      (ensureUser db s (jsOrNull q.email)).2, getOrders_eq db q s hqs hqsc, ?_, ?_⟩
    · simp only [listOrders, (ensureUser_frame db s (jsOrNull q.email)).1]
      exact sortByCreatedDesc_perm _
    · simp only [listOrders]
      exact sortByCreatedDesc_sorted _
  · have hfr := ensureUser_frame db s (jsOrNull p.email)
    have hpost : postOrders env db p body =
        (201,
         some ⟨db.nextOrderId, (ensureUser db s (jsOrNull p.email)).1, items, t,
               jsOrNull body.address, db.now⟩,
         { (ensureUser db s (jsOrNull p.email)).2 with
            orders := db.orders ++
              [⟨db.nextOrderId, (ensureUser db s (jsOrNull p.email)).1, items, t,
                jsOrNull body.address, db.now⟩],
            nextOrderId := db.nextOrderId + 1,
            now := db.now + 1 }) := by
      simp [postOrders, hpsc, hgate, hps, hitems, ht, insertOrder,
        hfr.1, hfr.2.1, hfr.2.2]
    refine ⟨_, _, hpost, ?_⟩
    exact getOrders_head_after_insert _ q s
      ⟨(ensureUser db s (jsOrNull p.email)).1, s, jsOrNull (jsOrNull p.email)⟩
      ⟨db.nextOrderId, (ensureUser db s (jsOrNull p.email)).1, items, t,
        jsOrNull body.address, db.now⟩
      db.orders hqs hqsc (ensureUser_find? db s (jsOrNull p.email)) rfl rfl
      (fun o ho => hwf.2 o ho)

/-- C7 witness: the subject with seven stored orders places an eighth one and
re-queries. -/
theorem getOrders_sorted_new_first_witness :
    (∃ L db1, getOrders dbSeven ⟨some "alice", ["read:orders"], none, none, none⟩ =
        (200, some L, db1) ∧
       L.Perm (dbSeven.orders.filter
         (fun o => o.user_id ==
           (ensureUser dbSeven "alice" (jsOrNull none)).1)) ∧
       L.Pairwise (fun a b => b.created_at ≤ a.created_at)) ∧
    (∃ row db2, postOrders ⟨false, none, none⟩ dbSeven
        ⟨some "alice", ["create:orders"], some true, none, none⟩
        ⟨some [⟨some "pepperoni", some 1⟩], some 10, none⟩ = (201, some row, db2) ∧
       ∃ L2 db3, getOrders db2 ⟨some "alice", ["read:orders"], none, none, none⟩ =
          (200, some L2, db3) ∧
         L2.head? = some row) :=
  getOrders_sorted_new_first ⟨false, none, none⟩ dbSeven
    ⟨some "alice", ["create:orders"], some true, none, none⟩
    ⟨some "alice", ["read:orders"], none, none, none⟩
    ⟨some [⟨some "pepperoni", some 1⟩], some 10, none⟩
    "alice" [⟨some "pepperoni", some 1⟩] 10
    ⟨by simp [Db.UsersWf, dbSeven], by simp [Db.ClockWf, dbSeven]⟩
    rfl rfl rfl rfl rfl rfl rfl

/-- C6: the summary route answers 400 when the sub parameter is missing, 200
with the empty array for a subject with no users row, and otherwise 200 with
the at-most-five most recent orders of the subject, reduced to
{ id, total, created_at } in created_at descending order; when the subject
owns more than five orders exactly five are returned, and every returned
order is at least as recent as every omitted one. -/
theorem summary_bounded_recent (db : Db) (p : Payload) (s : String)
    (hsc : hasScope p "read:orders_summary" = true)
    (hgty : p.gty = some "client-credentials") (hs : s ≠ "") :
    getOrdersSummary db p none = (400, none) ∧
    (db.users.find? (fun u => u.auth0_sub == s) = none →
      getOrdersSummary db p (some s) = (200, some [])) ∧
    (∀ u, db.users.find? (fun v => v.auth0_sub == s) = some u →
      getOrdersSummary db p (some s) =
        (200, some (((listOrders db u.id).take 5).map toSummary)) ∧
      (listOrders db u.id).Perm (db.orders.filter (fun o => o.user_id == u.id)) ∧
      (((listOrders db u.id).take 5).map toSummary).length ≤ 5 ∧
      (((listOrders db u.id).take 5).map toSummary).length =
        min 5 (db.orders.filter (fun o => o.user_id == u.id)).length ∧
      (5 < (db.orders.filter (fun o => o.user_id == u.id)).length →
        (((listOrders db u.id).take 5).map toSummary).length = 5) ∧
      (((listOrders db u.id).take 5).map toSummary).Pairwise
        (fun a b => b.created_at ≤ a.created_at) ∧
      (∀ x ∈ (listOrders db u.id).take 5, ∀ y ∈ (listOrders db u.id).drop 5,
        y.created_at ≤ x.created_at)) := by
  refine ⟨?_, ?_, ?_⟩
  · simp [getOrdersSummary, hsc, hgty, jsTruthy]
  · intro hnone
    simp [getOrdersSummary, hsc, hgty, jsTruthy, hs, hnone]
  · intro u hu
    have hperm : (listOrders db u.id).Perm
        (db.orders.filter (fun o => o.user_id == u.id)) :=
      sortByCreatedDesc_perm _
    have hsorted : (listOrders db u.id).Pairwise
        (fun a b => b.created_at ≤ a.created_at) :=
      sortByCreatedDesc_sorted _
    have hlen : (listOrders db u.id).length =
        (db.orders.filter (fun o => o.user_id == u.id)).length := hperm.length_eq
    have hlm : (((listOrders db u.id).take 5).map toSummary).length =
        min 5 (db.orders.filter (fun o => o.user_id == u.id)).length := by
      rw [List.length_map, List.length_take, hlen, inf_eq_min]
    refine ⟨?_, hperm, ?_, hlm, ?_, ?_, ?_⟩
    · simp [getOrdersSummary, hsc, hgty, jsTruthy, hs, hu]
    · rw [hlm]; omega
    · intro hgt5
      rw [hlm]
      omega
    · have htake : ((listOrders db u.id).take 5).Pairwise
          (fun a b => b.created_at ≤ a.created_at) :=
        List.Pairwise.sublist (List.take_sublist 5 _) hsorted
      exact List.Pairwise.map toSummary (fun a b hab => hab) htake
    · intro x hx y hy
      have hsplit : (listOrders db u.id).take 5 ++ (listOrders db u.id).drop 5 =
          listOrders db u.id := List.take_append_drop 5 _
      have hp := List.pairwise_append.mp
        (show ((listOrders db u.id).take 5 ++ (listOrders db u.id).drop 5).Pairwise
            (fun a b => b.created_at ≤ a.created_at) by
          rw [hsplit]; exact hsorted)
      exact hp.2.2 x hx y hy

/-- C6 witness: the summary route over the seven-order database, queried by a
machine-credentials token. -/
theorem summary_bounded_recent_witness :
    getOrdersSummary dbSeven
        ⟨some "hook", ["read:orders_summary"], none, none, some "client-credentials"⟩
        none = (400, none) ∧
    (dbSeven.users.find? (fun u => u.auth0_sub == "alice") = none →
      getOrdersSummary dbSeven
        ⟨some "hook", ["read:orders_summary"], none, none, some "client-credentials"⟩
        (some "alice") = (200, some [])) ∧
    (∀ u, dbSeven.users.find? (fun v => v.auth0_sub == "alice") = some u →
      getOrdersSummary dbSeven
        ⟨some "hook", ["read:orders_summary"], none, none, some "client-credentials"⟩
        (some "alice") =
        (200, some (((listOrders dbSeven u.id).take 5).map toSummary)) ∧
      (listOrders dbSeven u.id).Perm
        (dbSeven.orders.filter (fun o => o.user_id == u.id)) ∧
      (((listOrders dbSeven u.id).take 5).map toSummary).length ≤ 5 ∧
      (((listOrders dbSeven u.id).take 5).map toSummary).length =
        min 5 (dbSeven.orders.filter (fun o => o.user_id == u.id)).length ∧
      (5 < (dbSeven.orders.filter (fun o => o.user_id == u.id)).length →
        (((listOrders dbSeven u.id).take 5).map toSummary).length = 5) ∧
      (((listOrders dbSeven u.id).take 5).map toSummary).Pairwise
        (fun a b => b.created_at ≤ a.created_at) ∧
      (∀ x ∈ (listOrders dbSeven u.id).take 5,
        ∀ y ∈ (listOrders dbSeven u.id).drop 5,
          y.created_at ≤ x.created_at)) :=
  summary_bounded_recent dbSeven
    ⟨some "hook", ["read:orders_summary"], none, none, some "client-credentials"⟩
    "alice" rfl rfl (by decide)

end Pizza42
